import Mathlib

/-!
Verification of the content relevance ranking engine (`getRelatedPosts` and its
helpers `tokenizeTitle` and `jaccardSimilarity` from the site's content
utilities).  JavaScript numbers are modelled as real numbers, JS `Set<string>`
as `Finset String`, the stable `Array.prototype.sort` as insertion sort, and
the platform `Intl.Segmenter` as an explicit segmentation function parameter.
-/

/-- One segment produced by the word segmenter (`Intl.Segmenter` item:
the segment text together with its `isWordLike` flag). -/
structure Seg where
  segment : String
  isWordLike : Bool

/-- The word segmenter itself, an external platform facility
(`new Intl.Segmenter("zh", { granularity: "word" })`), modelled as a
function from a title to its list of segments. -/
abbrev Segmenter := String → List Seg

/-- The fields of a content record used by the ranking engine
(`post.data` in the source).  `published` is the parsed publish timestamp in
milliseconds (`new Date(post.data.published).getTime()`); `category` and
`password` are optional strings (`null`/`undefined` is `none`). -/
structure PostData where
  title : String
  tags : List String
  category : Option String
  published : ℝ
  password : Option String

/-- A content record: identifier plus data (a collection entry). -/
structure Post where
  id : String
  data : PostData

/-- The projection returned by the engine (`PostForList`: `id` and `data`). -/
structure PostForList where
  id : String
  data : PostData

/-- JS truthiness of the `password` field: `undefined`, `null` and the empty
string are falsy, any other string is truthy (`!p.data.password`). -/
def passwordTruthy (d : PostData) : Bool :=
  match d.password with
  | none => false
  | some s => !(s == "")

/-- `String.prototype.toLowerCase()`, modelled as character-wise case
folding. -/
def toLowerStr (s : String) : String :=
  ⟨s.data.map Char.toLower⟩

/-- `tokenizeTitle`: segment the title, keep only word-like segments, and
collect the lower-cased segment texts into a set
(`tokens.add(segment.toLowerCase())`). -/
def tokenizeTitle (seg : Segmenter) (title : String) : Finset String :=
  (((seg title).filter (fun t => t.isWordLike)).map
    (fun t => toLowerStr t.segment)).toFinset

/-- `jaccardSimilarity`: early-return `0` when both sets are empty, otherwise
count the intersection, form `union = a.size + b.size - intersection`, and
return `0` when the union count is `0` and `intersection / union` otherwise. -/
noncomputable def jaccardSimilarity (a b : Finset String) : ℝ :=
  if a.card = 0 ∧ b.card = 0 then 0
  else
    let intersection := (a ∩ b).card
    let union := a.card + b.card - intersection
    if union = 0 then 0 else (intersection : ℝ) / (union : ℝ)

/-- Modelled from the spec: the textbook Jaccard similarity
`|A ∩ B| / |A ∪ B|`, defined as `0` whenever the union is empty.  This is the
comparison definition for the zero-on-empty claim about `jaccardSimilarity`. -/
noncomputable def jaccardSpec (a b : Finset String) : ℝ :=
  if a ∪ b = ∅ then 0 else ((a ∩ b).card : ℝ) / ((a ∪ b).card : ℝ)

/-- `tagMatchScore` (0-100): Jaccard similarity of the two raw tag sets
(`new Set(post.data.tags || [])`) times 100. -/
noncomputable def tagMatchScore (currentPost post : Post) : ℝ :=
  jaccardSimilarity currentPost.data.tags.toFinset post.data.tags.toFinset * 100

/-- `titleSimilarityScore` (0-100): Jaccard similarity of the tokenized
titles times 100. -/
noncomputable def titleSimilarityScore (seg : Segmenter) (currentPost post : Post) : ℝ :=
  jaccardSimilarity (tokenizeTitle seg currentPost.data.title)
    (tokenizeTitle seg post.data.title) * 100

/-- `daysSincePublished`: `(now - published) / (1000 * 60 * 60 * 24)`. -/
noncomputable def daysSincePublished (now : ℝ) (post : Post) : ℝ :=
  (now - post.data.published) / (1000 * 60 * 60 * 24)

/-- `timeFreshnessScore`: `30 * Math.exp((-Math.LN2 * daysSincePublished) / 180)`,
a 180-day half-life exponential decay. -/
noncomputable def timeFreshnessScore (now : ℝ) (post : Post) : ℝ :=
  30 * Real.exp (-Real.log 2 * daysSincePublished now post / 180)

/-- The `category || ""` default applied before the bonus comparison. -/
def categoryOrEmpty (post : Post) : String :=
  post.data.category.getD ""

/-- `categoryBonus` (0 or 10): `currentCategory && postCategory &&
currentCategory === postCategory ? 10 : 0` (empty strings are falsy). -/
noncomputable def categoryBonus (currentPost post : Post) : ℝ :=
  if categoryOrEmpty currentPost ≠ "" ∧ categoryOrEmpty post ≠ "" ∧
      categoryOrEmpty currentPost = categoryOrEmpty post then 10 else 0

/-- The ephemeral scored-candidate object built per candidate: the candidate
record, the total score, and the three sub-scores the source keeps
(`{ post, totalScore, tagMatchScore, timeFreshnessScore, categoryBonus }`). -/
structure ScoredCandidate where
  post : Post
  totalScore : ℝ
  tagMatchScore : ℝ
  timeFreshnessScore : ℝ
  categoryBonus : ℝ

/-- The body of `candidates.map(...)`: compute the four sub-scores, sum them
into `totalScore`, and build the scored-candidate object. -/
noncomputable def scoreCandidate (seg : Segmenter) (currentPost : Post) (now : ℝ)
    (post : Post) : ScoredCandidate :=
  { post := post
    totalScore := tagMatchScore currentPost post + titleSimilarityScore seg currentPost post +
      timeFreshnessScore now post + categoryBonus currentPost post
    tagMatchScore := tagMatchScore currentPost post
    timeFreshnessScore := timeFreshnessScore now post
    categoryBonus := categoryBonus currentPost post }

/-- The candidate filter: `allPosts.filter(p => p.id !== currentPost.id &&
!p.data.password)`. -/
def candidatesOf (currentPost : Post) (allPosts : List Post) : List Post :=
  allPosts.filter (fun p => !(p.id == currentPost.id) && !passwordTruthy p.data)

/-- The scored candidate list (`const scored = candidates.map(...)`). -/
noncomputable def scoredOf (seg : Segmenter) (currentPost : Post) (allPosts : List Post)
    (now : ℝ) : List ScoredCandidate :=
  (candidatesOf currentPost allPosts).map (scoreCandidate seg currentPost now)

/-- JavaScript `Array.prototype.sort` with comparator
`(a, b) => keyOf b - keyOf a` is a stable descending sort on `keyOf`,
modelled by insertion sort with the relation `keyOf b ≤ keyOf a`. -/
noncomputable def sortByDesc {α : Type} (keyOf : α → ℝ) (l : List α) : List α :=
  l.insertionSort (fun a b => keyOf b ≤ keyOf a)

/-- The minimal projection pushed onto the result list
(`{ id: s.post.id, data: s.post.data }`). -/
def toEntry (s : ScoredCandidate) : PostForList :=
  ⟨s.post.id, s.post.data⟩

/-- One of the two fill loops of the selector: walk the scored list, break as
soon as `result.length >= maxCount`, and push the projection of each visited
candidate otherwise. -/
def fillLoop (maxCount : ℤ) : List PostForList → List ScoredCandidate → List PostForList
  | acc, [] => acc
  | acc, s :: rest =>
    if maxCount ≤ (acc.length : ℤ) then acc
    else fillLoop maxCount (acc ++ [toEntry s]) rest

/-- `getRelatedPosts`: filter out the current post and password-protected
posts, score the remaining candidates, sort by total score descending
(stable), partition into tag-matched (`tagMatchScore > 0`) and
non-tag-matched (`tagMatchScore === 0`), fill from the tag-matched list up to
`maxCount`, and if still short re-sort the non-tag-matched list by
`timeFreshnessScore + categoryBonus` descending and keep filling. -/
noncomputable def getRelatedPosts (seg : Segmenter) (currentPost : Post)
    (allPosts : List Post) (maxCount : ℤ) (now : ℝ) : List PostForList :=
  let sorted := sortByDesc ScoredCandidate.totalScore (scoredOf seg currentPost allPosts now)
  let withTagMatch := sorted.filter (fun s => decide (0 < s.tagMatchScore))
  let withoutTagMatch := sorted.filter (fun s => decide (s.tagMatchScore = 0))
  let result := fillLoop maxCount [] withTagMatch
  if (result.length : ℤ) < maxCount then
    fillLoop maxCount result
      (sortByDesc (fun s => s.timeFreshnessScore + s.categoryBonus) withoutTagMatch)
  else result

/-- Modelled from the spec: the two-tier assembly described in §4.3 of the
specification, with each tier built independently — the tag-matched
candidates sorted by total score descending (stable) and truncated to
`maxCount`, followed by the non-tag-matched candidates (taken in
total-score-descending order and re-sorted by freshness plus category bonus)
filling the remaining slots.  This is the comparison definition for the
two-tier refinement claim about `getRelatedPosts`. -/
noncomputable def selectRelatedSpec (seg : Segmenter) (currentPost : Post)
    (allPosts : List Post) (maxCount : ℤ) (now : ℝ) : List PostForList :=
  let scored := scoredOf seg currentPost allPosts now
  let tagged := sortByDesc ScoredCandidate.totalScore
    (scored.filter (fun s => decide (0 < s.tagMatchScore)))
  let untagged := sortByDesc (fun s => s.timeFreshnessScore + s.categoryBonus)
    (sortByDesc ScoredCandidate.totalScore
      (scored.filter (fun s => decide (s.tagMatchScore = 0))))
  ((tagged.take maxCount.toNat).map toEntry) ++
    ((untagged.take (maxCount.toNat - tagged.length)).map toEntry)

section SortFacts

variable {α : Type} (keyOf : α → ℝ)

theorem sortByDesc_perm (l : List α) : (sortByDesc keyOf l).Perm l :=
  List.perm_insertionSort _ l

theorem length_sortByDesc (l : List α) : (sortByDesc keyOf l).length = l.length :=
  List.length_insertionSort _ l

theorem mem_sortByDesc {l : List α} {x : α} : x ∈ sortByDesc keyOf l ↔ x ∈ l :=
  List.mem_insertionSort _

theorem sortByDesc_sorted (l : List α) :
    List.Sorted (fun a b => keyOf b ≤ keyOf a) (sortByDesc keyOf l) := by
  haveI : IsTotal α (fun a b => keyOf b ≤ keyOf a) := ⟨fun a b => le_total (keyOf b) (keyOf a)⟩
  haveI : IsTrans α (fun a b => keyOf b ≤ keyOf a) := ⟨fun _ _ _ hab hbc => le_trans hbc hab⟩
  exact List.sorted_insertionSort _ l

theorem orderedInsert_eq_cons (x : α) (l : List α) (h : ∀ z ∈ l, keyOf z ≤ keyOf x) :
    List.orderedInsert (fun a b => keyOf b ≤ keyOf a) x l = x :: l := by
  cases l with
  | nil => rfl
  | cons y ys =>
    rw [List.orderedInsert, if_pos (h y (List.mem_cons_self y ys))]

theorem filter_orderedInsert (p : α → Bool) (x : α) :
    ∀ l : List α, List.Sorted (fun a b => keyOf b ≤ keyOf a) l →
      (List.orderedInsert (fun a b => keyOf b ≤ keyOf a) x l).filter p =
        if p x then List.orderedInsert (fun a b => keyOf b ≤ keyOf a) x (l.filter p)
        else l.filter p := by
  intro l
  induction l with
  | nil =>
    intro _
    cases hp : p x <;> simp [List.orderedInsert, List.filter, hp]
  | cons y ys ih =>
    intro hl
    by_cases hxy : keyOf y ≤ keyOf x
    · rw [List.orderedInsert, if_pos hxy]
      cases hp : p x <;> cases hpy : p y <;>
        simp only [List.filter, hp, hpy, cond_true, cond_false, if_true, if_false,
          Bool.false_eq_true, ite_true, ite_false]
      · rw [orderedInsert_eq_cons]
        intro z hz
        have hzys : z ∈ ys := List.mem_of_mem_filter hz
        exact le_trans (List.rel_of_sorted_cons hl z hzys) hxy
      · rw [List.orderedInsert, if_pos hxy]
    · rw [List.orderedInsert, if_neg hxy]
      have ihs := ih hl.of_cons
      cases hp : p x <;> cases hpy : p y <;>
        simp only [List.filter, hp, hpy, cond_true, cond_false, if_true, if_false,
          Bool.false_eq_true, ite_true, ite_false] at ihs ⊢ <;>
        rw [ihs]
      rw [List.orderedInsert, if_neg hxy]

theorem filter_sortByDesc (p : α → Bool) (l : List α) :
    (sortByDesc keyOf l).filter p = sortByDesc keyOf (l.filter p) := by
  induction l with
  | nil => rfl
  | cons x xs ih =>
    rw [show sortByDesc keyOf (x :: xs) =
        List.orderedInsert (fun a b => keyOf b ≤ keyOf a) x (sortByDesc keyOf xs) from rfl]
    rw [filter_orderedInsert keyOf p x _ (sortByDesc_sorted keyOf xs)]
    cases hp : p x <;>
      simp only [List.filter, hp, cond_true, cond_false, if_true, if_false,
        Bool.false_eq_true, ite_true, ite_false]
    · exact ih
    · show List.orderedInsert _ x ((sortByDesc keyOf xs).filter p) = _
      rw [ih]
      rfl

theorem sortByDesc_of_const (l : List α) (v : ℝ) (h : ∀ a ∈ l, keyOf a = v) :
    sortByDesc keyOf l = l := by
  apply List.Sorted.insertionSort_eq
  apply List.pairwise_of_forall_mem_list
  intro a ha b hb
  rw [h a ha, h b hb]

theorem sortByDesc_filter_key_eq (l : List α) (v : ℝ) :
    (sortByDesc keyOf l).filter (fun a => decide (keyOf a = v)) =
      l.filter (fun a => decide (keyOf a = v)) := by
  rw [filter_sortByDesc]
  apply sortByDesc_of_const keyOf _ v
  intro a ha
  exact of_decide_eq_true (List.mem_filter.mp ha).2

end SortFacts

theorem fillLoop_eq (m : ℤ) :
    ∀ (xs : List ScoredCandidate) (acc : List PostForList),
      fillLoop m acc xs = acc ++ (xs.take (m - acc.length).toNat).map toEntry := by
  intro xs
  induction xs with
  | nil =>
    intro acc
    simp [fillLoop]
  | cons s rest ih =>
    intro acc
    rw [fillLoop]
    by_cases h : m ≤ (acc.length : ℤ)
    · rw [if_pos h]
      have h0 : (m - acc.length).toNat = 0 := by omega
      simp [h0]
    · rw [if_neg h]
      rw [ih]
      have h1 : (m - acc.length).toNat = (m - ((acc ++ [toEntry s]).length : ℤ)).toNat + 1 := by
        simp only [List.length_append, List.length_cons, List.length_nil]
        omega
      rw [h1, List.take_succ_cons, List.map_cons, List.append_assoc, List.singleton_append]

theorem jaccardSimilarity_nonneg (a b : Finset String) :
    0 ≤ jaccardSimilarity a b := by
  unfold jaccardSimilarity
  dsimp only
  split
  · exact le_refl 0
  · split
    · exact le_refl 0
    · positivity

theorem tagMatchScore_nonneg (currentPost post : Post) :
    0 ≤ tagMatchScore currentPost post :=
  mul_nonneg (jaccardSimilarity_nonneg _ _) (by norm_num)

theorem scoredOf_tag_nonneg (seg : Segmenter) (currentPost : Post) (allPosts : List Post)
    (now : ℝ) : ∀ s ∈ scoredOf seg currentPost allPosts now, 0 ≤ s.tagMatchScore := by
  intro s hs
  rcases List.mem_map.mp hs with ⟨p, _, rfl⟩
  exact tagMatchScore_nonneg currentPost p

theorem filter_tag_partition_length (l : List ScoredCandidate)
    (h : ∀ s ∈ l, 0 ≤ s.tagMatchScore) :
    (l.filter (fun s => decide (0 < s.tagMatchScore))).length +
      (l.filter (fun s => decide (s.tagMatchScore = 0))).length = l.length := by
  induction l with
  | nil => simp
  | cons s rest ih =>
    have hs := h s (List.mem_cons_self s rest)
    have hrest := ih (fun t ht => h t (List.mem_cons_of_mem _ ht))
    simp only [List.filter_cons, decide_eq_true_eq]
    rcases lt_or_eq_of_le hs with hpos | hzero
    · rw [if_pos hpos, if_neg (by intro h0; rw [h0] at hpos; exact lt_irrefl 0 hpos)]
      simp only [List.length_cons]
      omega
    · rw [if_neg (by rw [← hzero]; exact lt_irrefl 0), if_pos hzero.symm]
      simp only [List.length_cons]
      omega

/-- Structural characterisation of the selector: the engine's loop-based
assembly coincides with the tier-wise description of the specification.  This
is the workhorse used by several of the claim theorems below. -/
theorem related_structure (seg : Segmenter) (currentPost : Post) (allPosts : List Post)
    (maxCount : ℤ) (now : ℝ) :
    getRelatedPosts seg currentPost allPosts maxCount now =
      selectRelatedSpec seg currentPost allPosts maxCount now := by
  unfold getRelatedPosts selectRelatedSpec
  dsimp only
  set scored := scoredOf seg currentPost allPosts now with hscored
  set sorted := sortByDesc ScoredCandidate.totalScore scored with hsorted
  have hwt : sorted.filter (fun s => decide (0 < s.tagMatchScore)) =
      sortByDesc ScoredCandidate.totalScore
        (scored.filter (fun s => decide (0 < s.tagMatchScore))) := by
    rw [hsorted, filter_sortByDesc]
  have hwo : sorted.filter (fun s => decide (s.tagMatchScore = 0)) =
      sortByDesc ScoredCandidate.totalScore
        (scored.filter (fun s => decide (s.tagMatchScore = 0))) := by
    rw [hsorted, filter_sortByDesc]
  set wt := sorted.filter (fun s => decide (0 < s.tagMatchScore)) with hwtd
  set wo := sorted.filter (fun s => decide (s.tagMatchScore = 0)) with hwod
  have hfill1 : fillLoop maxCount [] wt =
      (wt.take maxCount.toNat).map toEntry := by
    rw [fillLoop_eq]
    simp
  have hlen1 : (fillLoop maxCount [] wt).length = min maxCount.toNat wt.length := by
    rw [hfill1, List.length_map, List.length_take]
  by_cases hshort : ((fillLoop maxCount [] wt).length : ℤ) < maxCount
  · rw [if_pos hshort]
    rw [hlen1] at hshort
    rw [fillLoop_eq, hfill1, ← hwt, ← hwo]
    have harg : (maxCount - (((wt.take maxCount.toNat).map toEntry).length : ℤ)).toNat =
        maxCount.toNat - wt.length := by
      simp only [List.length_map, List.length_take]
      omega
    rw [harg]
  · rw [if_neg hshort]
    rw [hlen1] at hshort
    have hzero : maxCount.toNat - wt.length = 0 := by omega
    rw [hfill1, ← hwt, ← hwo, hzero]
    simp

theorem mem_related_mem_scored {seg : Segmenter} {currentPost : Post} {allPosts : List Post}
    {maxCount : ℤ} {now : ℝ} {r : PostForList}
    (hr : r ∈ getRelatedPosts seg currentPost allPosts maxCount now) :
    ∃ s ∈ scoredOf seg currentPost allPosts now, r = toEntry s := by
  rw [related_structure] at hr
  unfold selectRelatedSpec at hr
  dsimp only at hr
  rcases List.mem_append.mp hr with h | h
  · rcases List.mem_map.mp h with ⟨s, hs, rfl⟩
    have hs2 := (mem_sortByDesc _).mp (List.mem_of_mem_take hs)
    exact ⟨s, List.mem_of_mem_filter hs2, rfl⟩
  · rcases List.mem_map.mp h with ⟨s, hs, rfl⟩
    have hs2 := (mem_sortByDesc _).mp ((mem_sortByDesc _).mp (List.mem_of_mem_take hs))
    exact ⟨s, List.mem_of_mem_filter hs2, rfl⟩

theorem mem_scored_eligible {seg : Segmenter} {currentPost : Post} {allPosts : List Post}
    {now : ℝ} {s : ScoredCandidate} (hs : s ∈ scoredOf seg currentPost allPosts now) :
    (!(s.post.id == currentPost.id) && !passwordTruthy s.post.data) = true := by
  unfold scoredOf at hs
  rcases List.mem_map.mp hs with ⟨p, hp, rfl⟩
  unfold candidatesOf at hp
  exact (List.mem_filter.mp hp).2

/-- C1: the output of `getRelatedPosts` never contains the reference record's
`id` nor any password-protected record, and the exclusions happen before
scoring: every scored candidate fed into selection is already neither the
reference nor restricted. -/
theorem related_excludes_self_and_restricted (seg : Segmenter) (currentPost : Post)
    (allPosts : List Post) (maxCount : ℤ) (now : ℝ) :
    ((getRelatedPosts seg currentPost allPosts maxCount now).all
      (fun r => !(r.id == currentPost.id) && !passwordTruthy r.data)) = true ∧
    ((scoredOf seg currentPost allPosts now).all
      (fun s => !(s.post.id == currentPost.id) && !passwordTruthy s.post.data)) = true := by
  constructor
  · rw [List.all_eq_true]
    intro r hr
    rcases mem_related_mem_scored hr with ⟨s, hs, rfl⟩
    exact mem_scored_eligible hs
  · rw [List.all_eq_true]
    intro s hs
    exact mem_scored_eligible hs

/-- C2: the output is assembled in two tiers — the tag-matched candidates in
total-score-descending (stable) order truncated to `maxCount`, then, only to
fill any remaining slots, the non-tag-matched candidates re-sorted by
`timeFreshnessScore + categoryBonus` descending, regardless of their total
scores. -/
theorem related_eq_two_tier (seg : Segmenter) (currentPost : Post) (allPosts : List Post)
    (maxCount : ℤ) (now : ℝ) :
    getRelatedPosts seg currentPost allPosts maxCount now =
      selectRelatedSpec seg currentPost allPosts maxCount now :=
  related_structure seg currentPost allPosts maxCount now

/-- C3: the output length is exactly the minimum of `maxCount` and the number
of eligible candidates (the corpus minus the reference and minus restricted
records); in particular it never exceeds `maxCount`, and a short or empty
corpus simply yields all eligible candidates with no padding. -/
theorem related_length_eq (seg : Segmenter) (currentPost : Post) (allPosts : List Post)
    (maxCount : ℤ) (now : ℝ) :
    (getRelatedPosts seg currentPost allPosts maxCount now).length =
      min maxCount.toNat (candidatesOf currentPost allPosts).length := by
  rw [related_structure]
  unfold selectRelatedSpec
  dsimp only
  rw [List.length_append, List.length_map, List.length_map, List.length_take,
    List.length_take, length_sortByDesc, length_sortByDesc, length_sortByDesc]
  have hpart := filter_tag_partition_length (scoredOf seg currentPost allPosts now)
    (scoredOf_tag_nonneg seg currentPost allPosts now)
  have hlen : (scoredOf seg currentPost allPosts now).length =
      (candidatesOf currentPost allPosts).length := List.length_map _ _
  omega

/-- C4: the sort of the scored candidate list by total score descending is
stable — it is a permutation, it is sorted by total score descending, and for
every total-score value the candidates having exactly that score appear in
the same order as in the scored (corpus-ordered) list. -/
theorem related_sort_stable (seg : Segmenter) (currentPost : Post) (allPosts : List Post)
    (now : ℝ) :
    ((sortByDesc ScoredCandidate.totalScore (scoredOf seg currentPost allPosts now)).Perm
      (scoredOf seg currentPost allPosts now)) ∧
    (List.Sorted (fun a b => b.totalScore ≤ a.totalScore)
      (sortByDesc ScoredCandidate.totalScore (scoredOf seg currentPost allPosts now))) ∧
    (∀ v : ℝ,
      (sortByDesc ScoredCandidate.totalScore (scoredOf seg currentPost allPosts now)).filter
          (fun s => decide (s.totalScore = v)) =
        (scoredOf seg currentPost allPosts now).filter (fun s => decide (s.totalScore = v))) :=
  ⟨sortByDesc_perm _ _, sortByDesc_sorted _ _,
    fun v => sortByDesc_filter_key_eq ScoredCandidate.totalScore _ v⟩

/-- A single-chunk segmenter instance, used for the concrete examples: the
whole title is one word-like segment. -/
def oneSeg : Segmenter := fun t => [⟨t, true⟩]

/-- Concrete reference record for examples: title `"a"`, no tags, no
category, published at time `0`, no password. -/
noncomputable def postRefTitle : Post := ⟨"ref-a", ⟨"a", [], none, 0, none⟩⟩

/-- Concrete candidate record with the same title, tags, and category as
`postRefTitle` but a different id. -/
noncomputable def postCandTitle : Post := ⟨"cand-a", ⟨"a", [], none, 0, none⟩⟩

/-- Concrete record published ten days after time `0` (864000000 ms). -/
noncomputable def postFuture : Post := ⟨"future", ⟨"f", [], none, 864000000, none⟩⟩

/-- Concrete record with category `"systems"`. -/
noncomputable def postCatX : Post := ⟨"cx", ⟨"x", [], some "systems", 0, none⟩⟩

/-- Another concrete record with category `"systems"`. -/
noncomputable def postCatY : Post := ⟨"cy", ⟨"y", [], some "systems", 0, none⟩⟩

/-- Concrete record carrying the single tag `"Go"`. -/
noncomputable def postTagGo : Post := ⟨"tg1", ⟨"g1", ["Go"], none, 0, none⟩⟩

/-- Concrete record carrying the single tag `"go"` (lower case). -/
noncomputable def postTaggo : Post := ⟨"tg2", ⟨"g2", ["go"], none, 0, none⟩⟩

theorem jaccardSimilarity_inter_empty {a b : Finset String} (h : a ∩ b = ∅) :
    jaccardSimilarity a b = 0 := by
  unfold jaccardSimilarity
  dsimp only
  split
  · rfl
  · rw [h]
    simp only [Finset.card_empty, Nat.sub_zero, Nat.cast_zero, zero_div]
    split <;> rfl

theorem card_union_eq_sub (a b : Finset String) :
    (a ∪ b).card = a.card + b.card - (a ∩ b).card := by
  have h := Finset.card_union_add_card_inter a b
  omega

/-- C8: `jaccardSimilarity` agrees everywhere with the set-theoretic
`|A ∩ B| / |A ∪ B|` that returns `0` on an empty union: in particular it is
`0` when both sets are empty and the division is only taken with a non-zero
denominator, so the result is always a well-defined real number. -/
theorem jaccardSimilarity_eq_spec (a b : Finset String) :
    jaccardSimilarity a b = jaccardSpec a b := by
  unfold jaccardSimilarity jaccardSpec
  rcases Decidable.em (a.card = 0 ∧ b.card = 0) with h | h
  · rw [if_pos h]
    have ha : a = ∅ := Finset.card_eq_zero.mp h.1
    have hb : b = ∅ := Finset.card_eq_zero.mp h.2
    rw [if_pos (by simp [ha, hb])]
  · rw [if_neg h]
    have hcard : (a ∪ b).card = a.card + b.card - (a ∩ b).card :=
      card_union_eq_sub a b
    have hne : ¬(a ∪ b = ∅) := by
      intro hu
      have ha : a = ∅ := by
        apply Finset.eq_empty_of_forall_not_mem
        intro x hx
        have : x ∈ a ∪ b := Finset.mem_union_left _ hx
        simp [hu] at this
      have hb : b = ∅ := by
        apply Finset.eq_empty_of_forall_not_mem
        intro x hx
        have : x ∈ a ∪ b := Finset.mem_union_right _ hx
        simp [hu] at this
      exact h ⟨by simp [ha], by simp [hb]⟩
    rw [if_neg hne]
    have hunion : a.card + b.card - (a ∩ b).card ≠ 0 := by
      intro h0
      apply hne
      apply Finset.card_eq_zero.mp
      omega
    simp only [hcard]
    rw [if_neg hunion]

/-- C5 (amended): the scorer's record retains the candidate, the tag match,
time freshness and category bonus sub-scores, and the total score, which is
the sum of all four sub-scores; the title similarity sub-score enters only
the total and is not stored as its own component. -/
theorem scoreCandidate_fields (seg : Segmenter) (currentPost : Post) (now : ℝ)
    (post : Post) :
    (scoreCandidate seg currentPost now post).post = post ∧
    (scoreCandidate seg currentPost now post).tagMatchScore = tagMatchScore currentPost post ∧
    (scoreCandidate seg currentPost now post).timeFreshnessScore = timeFreshnessScore now post ∧
    (scoreCandidate seg currentPost now post).categoryBonus = categoryBonus currentPost post ∧
    (scoreCandidate seg currentPost now post).totalScore =
      tagMatchScore currentPost post + titleSimilarityScore seg currentPost post +
        timeFreshnessScore now post + categoryBonus currentPost post :=
  ⟨rfl, rfl, rfl, rfl, rfl⟩

theorem tagMatchScore_no_tags : tagMatchScore postRefTitle postCandTitle = 0 := by
  unfold tagMatchScore
  rw [jaccardSimilarity_inter_empty (by decide), zero_mul]

theorem titleSimilarity_same_title :
    titleSimilarityScore oneSeg postRefTitle postCandTitle = 100 := by
  unfold titleSimilarityScore
  have htok1 : tokenizeTitle oneSeg postRefTitle.data.title = {"a"} := by decide
  have htok2 : tokenizeTitle oneSeg postCandTitle.data.title = {"a"} := by decide
  rw [htok1, htok2]
  unfold jaccardSimilarity
  dsimp only
  rw [if_neg (by decide)]
  rw [show (({"a"} : Finset String) ∩ {"a"}).card = 1 from by decide]
  rw [show ({"a"} : Finset String).card = 1 from by decide]
  norm_num

theorem timeFreshness_at_publish : timeFreshnessScore 0 postCandTitle = 30 := by
  unfold timeFreshnessScore daysSincePublished
  rw [show postCandTitle.data.published = 0 from rfl]
  norm_num

theorem categoryBonus_no_category : categoryBonus postRefTitle postCandTitle = 0 := by
  unfold categoryBonus
  rw [if_neg]
  intro h
  exact h.1 rfl

/-- C5 counterexample: at this concrete input the title similarity sub-score
is `100`, yet no component of the `ScoredCandidate` produced by the scorer
equals `100` — its components are the total `130`, tag match `0`, freshness
`30` and category bonus `0` — so the record does not retain all four
sub-scores. -/
theorem scoreCandidate_title_not_retained :
    titleSimilarityScore oneSeg postRefTitle postCandTitle = 100 ∧
    (scoreCandidate oneSeg postRefTitle 0 postCandTitle).totalScore ≠ 100 ∧
    (scoreCandidate oneSeg postRefTitle 0 postCandTitle).tagMatchScore ≠ 100 ∧
    (scoreCandidate oneSeg postRefTitle 0 postCandTitle).timeFreshnessScore ≠ 100 ∧
    (scoreCandidate oneSeg postRefTitle 0 postCandTitle).categoryBonus ≠ 100 := by
  have htotal : (scoreCandidate oneSeg postRefTitle 0 postCandTitle).totalScore =
      tagMatchScore postRefTitle postCandTitle +
        titleSimilarityScore oneSeg postRefTitle postCandTitle +
        timeFreshnessScore 0 postCandTitle + categoryBonus postRefTitle postCandTitle := rfl
  refine ⟨titleSimilarity_same_title, ?_, ?_, ?_, ?_⟩
  · rw [htotal, tagMatchScore_no_tags, titleSimilarity_same_title,
      timeFreshness_at_publish, categoryBonus_no_category]
    norm_num
  · rw [show (scoreCandidate oneSeg postRefTitle 0 postCandTitle).tagMatchScore =
      tagMatchScore postRefTitle postCandTitle from rfl, tagMatchScore_no_tags]
    norm_num
  · rw [show (scoreCandidate oneSeg postRefTitle 0 postCandTitle).timeFreshnessScore =
      timeFreshnessScore 0 postCandTitle from rfl, timeFreshness_at_publish]
    norm_num
  · rw [show (scoreCandidate oneSeg postRefTitle 0 postCandTitle).categoryBonus =
      categoryBonus postRefTitle postCandTitle from rfl, categoryBonus_no_category]
    norm_num

/-- C6: the time freshness score is `30 * exp(-ln 2 * daysSincePublished / 180)`
with `daysSincePublished = (now - published) / (1000 * 60 * 60 * 24)`, and it
is not clamped: a candidate published in the future (negative elapsed days)
scores strictly more than `30`, with no error. -/
theorem timeFreshness_formula_unclamped (now : ℝ) (post : Post) :
    timeFreshnessScore now post =
      30 * Real.exp (-Real.log 2 *
        ((now - post.data.published) / (1000 * 60 * 60 * 24)) / 180) ∧
    (daysSincePublished now post < 0 → 30 < timeFreshnessScore now post) := by
  refine ⟨rfl, fun hd => ?_⟩
  unfold timeFreshnessScore
  have hlog : 0 < Real.log 2 := Real.log_pos (by norm_num)
  have hx : 0 < -Real.log 2 * daysSincePublished now post / 180 := by
    apply div_pos _ (by norm_num)
    have := mul_pos_of_neg_of_neg (neg_neg_of_pos hlog) hd
    linarith
  have hexp : 1 < Real.exp (-Real.log 2 * daysSincePublished now post / 180) :=
    Real.one_lt_exp_iff.mpr hx
  linarith

/-- C6 witness: a record published ten days after `now = 0` has negative
elapsed days and a freshness score strictly above `30`. -/
theorem timeFreshness_future_witness :
    daysSincePublished 0 postFuture < 0 ∧ 30 < timeFreshnessScore 0 postFuture := by
  have hd : daysSincePublished 0 postFuture < 0 := by
    unfold daysSincePublished
    rw [show postFuture.data.published = 864000000 from rfl]
    norm_num
  exact ⟨hd, (timeFreshness_formula_unclamped 0 postFuture).2 hd⟩

/-- C7: the category bonus is exactly `10` precisely when both records have a
non-empty category string and the two strings are equal (case-sensitive), and
it is `0` in every other case — in particular two records with absent or
empty categories never earn the bonus. -/
theorem categoryBonus_iff (currentPost post : Post) :
    (categoryBonus currentPost post = 10 ↔
      (categoryOrEmpty currentPost ≠ "" ∧ categoryOrEmpty post ≠ "" ∧
        categoryOrEmpty currentPost = categoryOrEmpty post)) ∧
    (categoryBonus currentPost post = 10 ∨ categoryBonus currentPost post = 0) := by
  unfold categoryBonus
  by_cases h : categoryOrEmpty currentPost ≠ "" ∧ categoryOrEmpty post ≠ "" ∧
      categoryOrEmpty currentPost = categoryOrEmpty post
  · rw [if_pos h]
    exact ⟨⟨fun _ => h, fun _ => rfl⟩, Or.inl rfl⟩
  · rw [if_neg h]
    exact ⟨⟨fun h0 => absurd h0 (by norm_num), fun hh => absurd hh h⟩, Or.inr rfl⟩

/-- C7 witness: two records with the equal non-empty category `"systems"`
earn the bonus `10`. -/
theorem categoryBonus_systems_witness : categoryBonus postCatX postCatY = 10 :=
  (categoryBonus_iff postCatX postCatY).1.mpr ⟨by decide, by decide, rfl⟩

theorem related_nonpos_aux (seg : Segmenter) (currentPost : Post) (allPosts : List Post)
    (now : ℝ) {maxCount : ℤ} (hm : maxCount ≤ 0) :
    getRelatedPosts seg currentPost allPosts maxCount now = [] := by
  rw [related_structure]
  unfold selectRelatedSpec
  dsimp only
  rw [show maxCount.toNat = 0 from by omega]
  simp

/-- C9 (amended): the ranking call has no error outcome at all: for every
reference, corpus, time and integer `maxCount` it returns a list, and a
non-positive `maxCount` — including the negative values the specification
calls structural violations — yields the empty list rather than an explicit
error or failure. -/
theorem related_nonpos_returns_empty (seg : Segmenter) (currentPost : Post)
    (allPosts : List Post) (now : ℝ) (maxCount : ℤ) (hm : maxCount ≤ 0) :
    getRelatedPosts seg currentPost allPosts maxCount now = [] :=
  related_nonpos_aux seg currentPost allPosts now hm

/-- C9 counterexample: calling the engine with the negative `maxCount = -1`
on a non-empty corpus produces the ordinary value `[]` — a normal list
result, not an explicit error/result-failure. -/
theorem related_negative_maxCount_no_error :
    getRelatedPosts oneSeg postCatX [postCatY] (-1) 0 = [] :=
  related_nonpos_aux oneSeg postCatX [postCatY] 0 (by norm_num)

/-- C9 witness: the amended theorem applied at `maxCount = -5` with an empty
corpus. -/
theorem related_nonpos_witness :
    (-5 : ℤ) ≤ 0 ∧ getRelatedPosts oneSeg postCatX [] (-5) 0 = [] :=
  ⟨by norm_num, related_nonpos_returns_empty oneSeg postCatX [] 0 (-5) (by norm_num)⟩

/-- C10: tags are compared raw and case-sensitively: whenever two records
share no tag string under exact equality — in particular when their shared
tags differ only in letter case — the tag match score is `0` in both
directions, so neither record is a tag-matched candidate for the other. -/
theorem tagMatchScore_raw_case_sensitive (currentPost post : Post)
    (h : currentPost.data.tags.toFinset ∩ post.data.tags.toFinset = ∅) :
    tagMatchScore currentPost post = 0 ∧ tagMatchScore post currentPost = 0 := by
  constructor
  · unfold tagMatchScore
    rw [jaccardSimilarity_inter_empty h, zero_mul]
  · unfold tagMatchScore
    rw [jaccardSimilarity_inter_empty (by rwa [Finset.inter_comm]), zero_mul]

/-- C10 witness: the tags `"Go"` and `"go"` differ only in case, the raw tag
sets are disjoint, and the tag match score is `0` both ways. -/
theorem tagMatch_case_witness :
    postTagGo.data.tags.toFinset ∩ postTaggo.data.tags.toFinset = ∅ ∧
    tagMatchScore postTagGo postTaggo = 0 ∧ tagMatchScore postTaggo postTagGo = 0 := by
  have h : postTagGo.data.tags.toFinset ∩ postTaggo.data.tags.toFinset = ∅ := by decide
  exact ⟨h, tagMatchScore_raw_case_sensitive postTagGo postTaggo h⟩
